import Mathlib

/-!
Verification of the window-decoration shim in `src/src-tauri/src/main.rs`
(Koch-Morse-Code-Trainer). The file shallowly embeds the two operations,
`set_window_opacity` and `set_window_corner`, together with the startup
hook wired in `main`, and proves the specified properties about them.

Modelling conventions:
* Platform-conditional compilation (`#[cfg(target_os = "windows")]`) is
  embedded as an explicit `Platform` parameter; the `windows` branch holds
  the code inside the `cfg` block, `other` holds what remains.
* IEEE-754 doubles are embedded as `F64`: NaN, the two infinities, and
  finite values carried as exact rationals (a superset of the representable
  doubles).  The product `clamped * 255.0` is computed as IEEE-754 binary64
  multiplication does: the exact rational product is rounded to the nearest
  value with a 53-bit significand, ties to even (`roundDouble`).  On the
  consulted range the factors are normal and no overflow occurs, so this is
  exactly the double the program obtains; the rounding matters, e.g. at
  0x1.a1a1a1a1a1a1ap-4 the double product is 26.0 while the exact product
  is just below 26.
* Calls into the OS (`GetWindowLongW`, `SetWindowLongW`,
  `SetLayeredWindowAttributes`, `DwmSetWindowAttribute`) are recorded in an
  explicit trace, and their fallible outcomes are drawn from an `OS` state
  that also carries the window's extended-style bit pattern.
-/

inductive Platform where
  | windows
  | other
deriving DecidableEq

/-- An IEEE-754 double as consumed by the opacity path: NaN, infinities, or
a finite value (overapproximated by an arbitrary rational). -/
inductive F64 where
  | nan
  | negInf
  | posInf
  | finite (q : ℚ)
deriving DecidableEq

/-- The value of the Rust literal `0.1f64`: the double nearest `1/10`,
namely `3602879701896397 * 2^(-55)` (slightly above `1/10`). -/
def lit01 : ℚ := 3602879701896397 / 36028797018963968

/-- Rational core of `f64::clamp(0.1, 1.0)`: Rust clamps by
`if x < min { x = min }; if x > max { x = max }`. -/
def clampQ (q : ℚ) : ℚ := if q < lit01 then lit01 else if q > 1 then 1 else q

/-- `opacity.clamp(0.1, 1.0)` from the source.  Rust's `f64::clamp` leaves
NaN in place (both comparisons are false on NaN); `-inf` is pulled up to
the lower bound `0.1f64` and `+inf` down to `1.0`. -/
def F64.clamp01 : F64 → F64
  | .nan => .nan
  | .negInf => .finite lit01
  | .posInf => .finite 1
  | .finite q => .finite (clampQ q)

/-- Round half to even: the integer nearest `s`, with ties going to the
even neighbour, as IEEE-754 rounding does on the scaled significand. -/
def rne (s : ℚ) : ℤ :=
  if s - ⌊s⌋ < 1/2 then ⌊s⌋
  else if 1/2 < s - ⌊s⌋ then ⌊s⌋ + 1
  else if ⌊s⌋ % 2 = 0 then ⌊s⌋ else ⌊s⌋ + 1

/-- Round a positive rational to the nearest binary64 value (round to
nearest, ties to even): scale into the 53-bit significand range
`[2^52, 2^53)` using the binade exponent `Int.log 2 x`, round half to
even, and scale back.  Faithful on the normal, non-overflowing range,
which covers every product the opacity path consults. -/
def roundDouble (x : ℚ) : ℚ :=
  if x ≤ 0 then x
  else (rne (x * 2 ^ ((52 : ℤ) - Int.log 2 x)) : ℚ) * 2 ^ (Int.log 2 x - 52)

/-- Multiplication by the literal `255.0`, as in `... * 255.0`: IEEE-754
binary64 multiplication, i.e. the exact product rounded to the nearest
representable double.  NaN and infinities propagate. -/
def F64.mul255 : F64 → F64
  | .nan => .nan
  | .negInf => .negInf
  | .posInf => .posInf
  | .finite q => .finite (roundDouble (q * 255))

/-- Rust's saturating float-to-integer cast `as u8`: NaN casts to 0,
values below 0 saturate to 0, values at or above 256 saturate to 255, and
in-range values are truncated toward zero.  (For the saturated result,
truncation toward zero and `Int.floor` agree: a negative value truncates
to a non-positive integer, which saturates to 0 just as its floor does.) -/
def F64.toU8 : F64 → ℕ
  | .nan => 0
  | .negInf => 0
  | .posInf => 255
  | .finite q => (min 255 (max 0 ⌊q⌋)).toNat

/-- The alpha byte computed by `set_window_opacity`:
`(opacity.clamp(0.1, 1.0) * 255.0) as u8`. -/
def alphaByte (opacity : F64) : ℕ := ((opacity.clamp01).mul255).toU8

/-- IEEE comparison `o1 <= o2` on doubles: false whenever either side is
NaN, the usual order otherwise. -/
def F64.fle : F64 → F64 → Bool
  | .nan, _ => false
  | _, .nan => false
  | .negInf, _ => true
  | _, .negInf => false
  | _, .posInf => true
  | .posInf, _ => false
  | .finite a, .finite b => a ≤ b

/-- A native window handle (`HWND`), identified by its pointer value. -/
abbrev HWND := ℕ

/-- The slice of a `tauri::Window` / `tauri::WebviewWindow` this code
consults: the outcome of `window.hwnd()`, already rendered to a string on
failure as `map_err(|e| e.to_string())` does. -/
structure TauriWindow where
  hwnd_result : Except String HWND

/-- `GWL_EXSTYLE` index passed to `GetWindowLongW`/`SetWindowLongW`. -/
def GWL_EXSTYLE : Int := -20

/-- `WS_EX_LAYERED` extended-style flag (bit 19). -/
def WS_EX_LAYERED : ℕ := 0x00080000

/-- `LWA_ALPHA` flag for `SetLayeredWindowAttributes`. -/
def LWA_ALPHA : ℕ := 0x00000002

/-- Corner-preference constants of `DWM_WINDOW_CORNER_PREFERENCE`,
as listed in the source comments. -/
def DWMWCP_DEFAULT : ℕ := 0

/-- `DWMWCP_DONOTROUND`: do not round ("square"). -/
def DWMWCP_DONOTROUND : ℕ := 1

/-- `DWMWCP_ROUND`: round the corners. -/
def DWMWCP_ROUND : ℕ := 2

/-- `DWMWCP_ROUNDSMALL`: small rounded corners. -/
def DWMWCP_ROUNDSMALL : ℕ := 3

/-- The `DWMWA_WINDOW_CORNER_PREFERENCE` attribute selector. -/
def DWMWA_WINDOW_CORNER_PREFERENCE : ℕ := 33

/-- `std::mem::size_of_val(&corner_preference)`:
`DWM_WINDOW_CORNER_PREFERENCE` is a transparent wrapper around an `i32`,
so its size is 4 bytes. -/
def sizeOfCornerPreference : ℕ := 4

/-- One call into the platform's window-manager / compositor API, with the
arguments the source passes. -/
inductive PlatformCall where
  | getWindowLongW (hwnd : HWND) (index : Int)
  | setWindowLongW (hwnd : HWND) (index : Int) (value : ℕ)
  | setLayeredWindowAttributes (hwnd : HWND) (crKey : ℕ) (bAlpha : ℕ) (dwFlags : ℕ)
  | dwmSetWindowAttribute (hwnd : HWND) (dwAttribute : ℕ) (pvAttribute : ℕ) (cbAttribute : ℕ)
deriving DecidableEq

/-- Does a platform call address the compositor's window-attribute setter
(`DwmSetWindowAttribute`)? -/
def PlatformCall.isDwmSetWindowAttribute : PlatformCall → Bool
  | .dwmSetWindowAttribute _ _ _ _ => true
  | _ => false

/-- OS-side state the shim interacts with: the window's current extended
style bit pattern, and oracles for the outcomes of the two fallible
compositor calls (`none` = success, `some e` = rejection with diagnostic
`e`, the text that `{:?}` renders). -/
structure OS where
  exStyle : ℕ
  layeredAttrError : Option String
  dwmError : Option String
deriving DecidableEq

/-- Outcome of one invocation of the opacity command: the `Result` value
returned to the caller, the OS state afterwards, and the platform calls
performed, in order. -/
structure OpacityOutcome where
  result : Except String Unit
  os : OS
  trace : List PlatformCall

/-- `set_window_opacity` from the source.  On a non-windows platform the
whole `cfg` block is absent and the function is just `Ok(())`.  On
windows: resolve the handle (`map_err(|e| e.to_string())?`), read the
extended style, OR in `WS_EX_LAYERED` and write it back, then call
`SetLayeredWindowAttributes(hwnd, COLORREF(0), alpha, LWA_ALPHA)` with
`alpha = (opacity.clamp(0.1, 1.0) * 255.0) as u8`, mapping a rejection to
`"Failed to set window opacity: {:?}"`. -/
def set_window_opacity (platform : Platform) (window : TauriWindow) (opacity : F64)
    (os : OS) : OpacityOutcome :=
  match platform with
  | .other => ⟨.ok (), os, []⟩
  | .windows =>
    match window.hwnd_result with
    | .error e => ⟨.error e, os, []⟩
    | .ok hwnd =>
      let ex_style := os.exStyle
      let newStyle := ex_style ||| WS_EX_LAYERED
      let alpha := alphaByte opacity
      let trace : List PlatformCall :=
        [.getWindowLongW hwnd GWL_EXSTYLE,
         .setWindowLongW hwnd GWL_EXSTYLE newStyle,
         .setLayeredWindowAttributes hwnd 0 alpha LWA_ALPHA]
      match os.layeredAttrError with
      | none => ⟨.ok (), { os with exStyle := newStyle }, trace⟩
      | some e =>
        ⟨.error ("Failed to set window opacity: " ++ e), { os with exStyle := newStyle }, trace⟩

/-- `set_window_corner` from the source: resolve the handle
(`map_err(|e| e.to_string())?`), then call
`DwmSetWindowAttribute(hwnd, DWMWA_WINDOW_CORNER_PREFERENCE,
&DWMWCP_ROUND, size_of_val(&corner_preference))`, mapping a rejection to
`"Failed to set window corner:  {:?}"`.  Returns the `Result` and the
platform calls performed. -/
def set_window_corner (window : TauriWindow) (os : OS) :
    Except String Unit × List PlatformCall :=
  match window.hwnd_result with
  | .error e => (.error e, [])
  | .ok hwnd =>
    let call := PlatformCall.dwmSetWindowAttribute hwnd DWMWA_WINDOW_CORNER_PREFERENCE
      DWMWCP_ROUND sizeOfCornerPreference
    match os.dwmError with
    | none => (.ok (), [call])
    | some e => (.error ("Failed to set window corner:  " ++ e), [call])

/-- The application shell's window registry, as `setup` consults it:
`app.get_webview_window(label)`. -/
structure App where
  get_webview_window : String → Option TauriWindow

/-- Result of running the `setup` closure: either the closure panicked
(the `unwrap()` on the window lookup), or it returned a `Result`. -/
inductive SetupOutcome where
  | panicked
  | returned (r : Except String Unit)

/-- The `setup` closure in `main`: look up the window labelled "main" and
`unwrap()` (panicking when absent), then — only under
`#[cfg(target_os = "windows")]` — run `set_window_corner(&window)?`,
propagating its error out of the closure; finally `Ok(())`. -/
def setup (platform : Platform) (app : App) (os : OS) :
    SetupOutcome × List PlatformCall :=
  match app.get_webview_window "main" with
  | none => (.panicked, [])
  | some window =>
    match platform with
    | .other => (.returned (.ok ()), [])
    | .windows =>
      match set_window_corner window os with
      | (.error e, t) => (.returned (.error e), t)
      | (.ok (), t) => (.returned (.ok ()), t)

/-- How the launch of the process ends: aborted during startup, or left
running. -/
inductive AppLaunch where
  | aborted
  | running
deriving DecidableEq

/-- Modelled contract of the tauri shell around `main`'s builder chain: a
panic inside the `setup` closure aborts the process; an `Err` returned by
`setup` makes `Builder::run` return an error, which
`.expect("error while running tauri application")` turns into a panic, so
startup aborts; otherwise the application is left running. -/
def mainStartup (platform : Platform) (app : App) (os : OS) :
    AppLaunch × List PlatformCall :=
  match setup platform app os with
  | (.panicked, t) => (.aborted, t)
  | (.returned (.error _), t) => (.aborted, t)
  | (.returned (.ok ()), t) => (.running, t)

/-- Modelled contract of the tauri invoke handler: a front-end invocation
of the registered command `set_window_opacity` delivers the command's
`Result` to the invoking caller and leaves the launch state of the
application untouched (command errors are not fatal to the shell). -/
def invoke_set_window_opacity (platform : Platform) (window : TauriWindow)
    (opacity : F64) (launch : AppLaunch) (os : OS) :
    Except String Unit × AppLaunch × OS :=
  let o := set_window_opacity platform window opacity os
  (o.result, launch, o.os)

/-! ### Helper lemmas about the alpha computation -/

/-- `1/10 < 0.1f64`: the double literal overshoots the decimal. -/
lemma lit01_gt : (1 : ℚ)/10 < lit01 := by norm_num [lit01]

/-- `0 < 0.1f64`. -/
lemma lit01_pos : (0 : ℚ) < lit01 := by norm_num [lit01]

/-- `0.1f64 < 1`. -/
lemma lit01_lt_one : lit01 < 1 := by norm_num [lit01]

/-- The clamp really lands in `[0.1f64, 1]`. -/
lemma clampQ_mem (q : ℚ) : lit01 ≤ clampQ q ∧ clampQ q ≤ 1 := by
  unfold clampQ
  split
  · exact ⟨le_refl _, le_of_lt lit01_lt_one⟩
  · split
    · exact ⟨le_of_lt lit01_lt_one, le_refl _⟩
    · constructor <;> [linarith; linarith]

/-- The clamp is monotone. -/
lemma clampQ_mono {a b : ℚ} (h : a ≤ b) : clampQ a ≤ clampQ b := by
  unfold clampQ
  rcases lt_or_ge a lit01 with ha | ha <;> rcases lt_or_ge b lit01 with hb | hb <;>
    simp [ha, hb, not_lt_of_ge, not_lt.mpr] <;> split_ifs <;>
    first
      | rfl
      | exact le_of_lt lit01_lt_one
      | linarith

/-! ### The rounding step of the alpha computation -/

/-- `rne` never strays from the floor by more than one. -/
lemma rne_bounds (s : ℚ) : ⌊s⌋ ≤ rne s ∧ rne s ≤ ⌊s⌋ + 1 := by
  unfold rne
  split_ifs <;> omega

/-- Round half to even is monotone. -/
lemma rne_mono {s t : ℚ} (h : s ≤ t) : rne s ≤ rne t := by
  have hf : ⌊s⌋ ≤ ⌊t⌋ := Int.floor_le_floor h
  obtain ⟨hs1, hs2⟩ := rne_bounds s
  obtain ⟨ht1, ht2⟩ := rne_bounds t
  rcases lt_or_eq_of_le hf with hlt | heq
  · omega
  · have heqQ : ((⌊s⌋ : ℤ) : ℚ) = ((⌊t⌋ : ℤ) : ℚ) := by exact_mod_cast heq
    unfold rne
    split_ifs <;> first | omega | (exfalso; linarith)

/-- Characterisation of `Int.log 2` by the enclosing binade. -/
lemma int_log2_eq {x : ℚ} {n : ℤ} (hx : 0 < x) (h1 : (2:ℚ) ^ n ≤ x)
    (h2 : x < (2:ℚ) ^ (n + 1)) : Int.log 2 x = n := by
  have h1' : ((2:ℕ):ℚ) ^ n ≤ x := by exact_mod_cast h1
  have h2' : x < ((2:ℕ):ℚ) ^ (n + 1) := by exact_mod_cast h2
  have ha := (Int.zpow_le_iff_le_log (by norm_num) hx).mp h1'
  have hb := (Int.lt_zpow_iff_log_lt (by norm_num) hx).mp h2'
  omega

/-- The binade lower end is below the value. -/
lemma two_zpow_log_le_self {x : ℚ} (hx : 0 < x) : (2:ℚ) ^ Int.log 2 x ≤ x := by
  have h := Int.zpow_log_le_self (b := 2) (r := x) (by norm_num) hx
  exact_mod_cast h

/-- The value is below the binade upper end. -/
lemma lt_two_zpow_log_succ (x : ℚ) : x < (2:ℚ) ^ (Int.log 2 x + 1) := by
  have h := Int.lt_zpow_succ_log_self (b := 2) (r := x) (by norm_num)
  exact_mod_cast h

/-- Evaluation of `rne` when the fraction is below one half. -/
lemma rne_eval_down {s : ℚ} {f : ℤ} (hf : ⌊s⌋ = f) (hlt : s - (f:ℚ) < 1/2) :
    rne s = f := by
  unfold rne
  simp only [hf]
  rw [if_pos hlt]

/-- Evaluation of `rne` when the fraction is above one half. -/
lemma rne_eval_up {s : ℚ} {f : ℤ} (hf : ⌊s⌋ = f) (hgt : 1/2 < s - (f:ℚ)) :
    rne s = f + 1 := by
  unfold rne
  simp only [hf]
  rw [if_neg (by linarith), if_pos hgt]

/-- Evaluation rule for `roundDouble` given the binade of the argument and
the rounded significand. -/
lemma roundDouble_eval {x v : ℚ} {e : ℤ} (hx : 0 < x)
    (h1 : (2:ℚ) ^ e ≤ x) (h2 : x < (2:ℚ) ^ (e + 1))
    (hv : (rne (x * 2 ^ ((52 : ℤ) - e)) : ℚ) * 2 ^ (e - 52) = v) :
    roundDouble x = v := by
  unfold roundDouble
  rw [if_neg (not_le.mpr hx), int_log2_eq hx h1 h2, hv]

/-- `2^53` as an integer versus as a rational power. -/
lemma two_zpow53 : ((2^53 : ℤ) : ℚ) = (2:ℚ) ^ (53:ℤ) := by norm_num

/-- `2^52` as an integer versus as a rational power. -/
lemma two_zpow52 : ((2^52 : ℤ) : ℚ) = (2:ℚ) ^ (52:ℤ) := by norm_num

/-- `roundDouble` is monotone on positive inputs: within one binade the
scaled significands compare and `rne` is monotone; across binades the
smaller value rounds to at most its binade top `2^(e+1)`, which is at most
the larger binade's bottom, below the larger rounded value. -/
lemma roundDouble_mono {x y : ℚ} (hx : 0 < x) (hxy : x ≤ y) :
    roundDouble x ≤ roundDouble y := by
  have hy : 0 < y := lt_of_lt_of_le hx hxy
  unfold roundDouble
  rw [if_neg (not_le.mpr hx), if_neg (not_le.mpr hy)]
  have hee : Int.log 2 x ≤ Int.log 2 y := Int.log_mono_right hx hxy
  have hpx : (0:ℚ) < 2 ^ ((52:ℤ) - Int.log 2 x) := zpow_pos (by norm_num) _
  have hpy : (0:ℚ) < 2 ^ ((52:ℤ) - Int.log 2 y) := zpow_pos (by norm_num) _
  have hqx : (0:ℚ) < 2 ^ (Int.log 2 x - 52) := zpow_pos (by norm_num) _
  have hqy : (0:ℚ) < 2 ^ (Int.log 2 y - 52) := zpow_pos (by norm_num) _
  rcases eq_or_lt_of_le hee with heq | hlt
  · rw [heq]
    have hs : x * 2 ^ ((52:ℤ) - Int.log 2 y) ≤ y * 2 ^ ((52:ℤ) - Int.log 2 y) :=
      mul_le_mul_of_nonneg_right hxy (le_of_lt hpy)
    have hr : (rne (x * 2 ^ ((52:ℤ) - Int.log 2 y)) : ℚ)
        ≤ (rne (y * 2 ^ ((52:ℤ) - Int.log 2 y)) : ℚ) := by
      exact_mod_cast rne_mono hs
    exact mul_le_mul_of_nonneg_right hr (le_of_lt hqy)
  · have hxlt : x < (2:ℚ) ^ (Int.log 2 x + 1) := lt_two_zpow_log_succ x
    have hyge : (2:ℚ) ^ Int.log 2 y ≤ y := two_zpow_log_le_self hy
    have hsx : x * 2 ^ ((52:ℤ) - Int.log 2 x) < (2:ℚ) ^ (53:ℤ) := by
      calc x * 2 ^ ((52:ℤ) - Int.log 2 x)
          < 2 ^ (Int.log 2 x + 1) * 2 ^ ((52:ℤ) - Int.log 2 x) :=
            mul_lt_mul_of_pos_right hxlt hpx
        _ = (2:ℚ) ^ (53:ℤ) := by
            rw [← zpow_add₀ (by norm_num : (2:ℚ) ≠ 0)]
            congr 1
            ring
    have hsy : (2:ℚ) ^ (52:ℤ) ≤ y * 2 ^ ((52:ℤ) - Int.log 2 y) := by
      calc (2:ℚ) ^ (52:ℤ)
          = 2 ^ Int.log 2 y * 2 ^ ((52:ℤ) - Int.log 2 y) := by
            rw [← zpow_add₀ (by norm_num : (2:ℚ) ≠ 0)]
            congr 1
            ring
        _ ≤ y * 2 ^ ((52:ℤ) - Int.log 2 y) :=
            mul_le_mul_of_nonneg_right hyge (le_of_lt hpy)
    have hrx : rne (x * 2 ^ ((52:ℤ) - Int.log 2 x)) ≤ 2 ^ 53 := by
      obtain ⟨-, hb⟩ := rne_bounds (x * 2 ^ ((52:ℤ) - Int.log 2 x))
      have hfl : ⌊x * 2 ^ ((52:ℤ) - Int.log 2 x)⌋ < 2 ^ 53 := by
        rw [Int.floor_lt, two_zpow53]
        exact hsx
      omega
    have hry : (2:ℤ) ^ 52 ≤ rne (y * 2 ^ ((52:ℤ) - Int.log 2 y)) := by
      obtain ⟨ha, -⟩ := rne_bounds (y * 2 ^ ((52:ℤ) - Int.log 2 y))
      have hfl : (2:ℤ) ^ 52 ≤ ⌊y * 2 ^ ((52:ℤ) - Int.log 2 y)⌋ := by
        rw [Int.le_floor]
        calc ((2 ^ 52 : ℤ) : ℚ) = (2:ℚ) ^ (52:ℤ) := two_zpow52
          _ ≤ y * 2 ^ ((52:ℤ) - Int.log 2 y) := hsy
      omega
    calc (rne (x * 2 ^ ((52:ℤ) - Int.log 2 x)) : ℚ) * 2 ^ (Int.log 2 x - 52)
        ≤ (2:ℚ) ^ (53:ℤ) * 2 ^ (Int.log 2 x - 52) := by
          refine mul_le_mul_of_nonneg_right ?_ (le_of_lt hqx)
          rw [← two_zpow53]
          exact_mod_cast hrx
      _ = (2:ℚ) ^ (Int.log 2 x + 1) := by
          rw [← zpow_add₀ (by norm_num : (2:ℚ) ≠ 0)]
          congr 1
          ring
      _ ≤ (2:ℚ) ^ Int.log 2 y := zpow_le_zpow_right₀ (by norm_num) (by omega)
      _ = (2:ℚ) ^ (52:ℤ) * 2 ^ (Int.log 2 y - 52) := by
          rw [← zpow_add₀ (by norm_num : (2:ℚ) ≠ 0)]
          congr 1
          ring
      _ ≤ (rne (y * 2 ^ ((52:ℤ) - Int.log 2 y)) : ℚ) * 2 ^ (Int.log 2 y - 52) := by
          refine mul_le_mul_of_nonneg_right ?_ (le_of_lt hqy)
          rw [← two_zpow52]
          exact_mod_cast hry

/-- `0.1f64 * 255.0` rounds to exactly 25.5 (a representable double). -/
lemma roundDouble_lit01_255 : roundDouble (lit01 * 255) = 51/2 := by
  refine roundDouble_eval (e := 4) (by norm_num [lit01]) (by norm_num [lit01])
    (by norm_num [lit01]) ?_
  rw [show ((52:ℤ) - 4) = 48 by norm_num,
    show lit01 * 255 * (2:ℚ) ^ (48:ℤ) = 918734323983581235/128 by norm_num [lit01],
    rne_eval_down (f := 7177611906121728) (by norm_num) (by norm_num)]
  norm_num

/-- `255.0` is already representable, so it rounds to itself. -/
lemma roundDouble_255 : roundDouble (255:ℚ) = 255 := by
  refine roundDouble_eval (e := 7) (by norm_num) (by norm_num) (by norm_num) ?_
  rw [show ((52:ℤ) - 7) = 45 by norm_num,
    show (255:ℚ) * (2:ℚ) ^ (45:ℤ) = 8972014882652160 by norm_num,
    rne_eval_down (f := 8972014882652160) (by norm_num) (by norm_num)]
  norm_num

/-- `127.5` is representable, so `0.5 * 255.0` is exact. -/
lemma roundDouble_half255 : roundDouble ((255:ℚ)/2) = 255/2 := by
  refine roundDouble_eval (e := 6) (by norm_num) (by norm_num) (by norm_num) ?_
  rw [show ((52:ℤ) - 6) = 46 by norm_num,
    show (255:ℚ)/2 * (2:ℚ) ^ (46:ℤ) = 8972014882652160 by norm_num,
    rne_eval_down (f := 8972014882652160) (by norm_num) (by norm_num)]
  norm_num

/-- The double `0x1.a1a1a1a1a1a1ap-4`, the one nearest `26/255`.  It lies
strictly between `0.1f64` and `1`, so the clamp leaves it alone. -/
def qNear26 : ℚ := 7347048803867162 / 72057594037927936

/-- At `qNear26` the exact product is just below 26, but the IEEE product
rounds up across the integer to exactly 26.0. -/
lemma roundDouble_qNear26_255 : roundDouble (qNear26 * 255) = 26 := by
  refine roundDouble_eval (e := 4) (by norm_num [qNear26]) (by norm_num [qNear26])
    (by norm_num [qNear26]) ?_
  rw [show ((52:ℤ) - 4) = 48 by norm_num,
    show qNear26 * 255 * (2:ℚ) ^ (48:ℤ) = 936748722493063155/128 by norm_num [qNear26],
    rne_eval_up (f := 7318349394477055) (by norm_num) (by norm_num)]
  norm_num

/-- The clamp leaves `qNear26` untouched. -/
lemma clampQ_qNear26 : clampQ qNear26 = qNear26 := by
  unfold clampQ
  rw [if_neg (by norm_num [qNear26, lit01]), if_neg (by norm_num [qNear26])]

/-! ### Helper lemmas about the alpha computation -/

/-- The alpha byte of any finite input, written out: saturated truncation
of the rounded product of the clamped value with 255. -/
lemma alphaByte_finite (q : ℚ) :
    alphaByte (.finite q) = (min 255 (max 0 ⌊roundDouble (clampQ q * 255)⌋)).toNat := rfl

/-- For finite inputs the saturation is inert: the floor of the rounded
product already lies in `[25, 255]`. -/
lemma floor_clamp_bounds (q : ℚ) :
    25 ≤ ⌊roundDouble (clampQ q * 255)⌋ ∧ ⌊roundDouble (clampQ q * 255)⌋ ≤ 255 := by
  obtain ⟨hlo, hhi⟩ := clampQ_mem q
  have hpos : (0:ℚ) < lit01 * 255 := by norm_num [lit01]
  have h1 : lit01 * 255 ≤ clampQ q * 255 := by nlinarith
  have h2 : clampQ q * 255 ≤ 255 := by nlinarith
  have hlo2 : (51/2 : ℚ) ≤ roundDouble (clampQ q * 255) := by
    rw [← roundDouble_lit01_255]
    exact roundDouble_mono hpos h1
  have hhi2 : roundDouble (clampQ q * 255) ≤ 255 := by
    have h0 : (0:ℚ) < clampQ q * 255 := by linarith
    calc roundDouble (clampQ q * 255) ≤ roundDouble 255 := roundDouble_mono h0 h2
      _ = 255 := roundDouble_255
  constructor
  · exact Int.le_floor.mpr (by push_cast; linarith)
  · calc ⌊roundDouble (clampQ q * 255)⌋ ≤ ⌊(255:ℚ)⌋ := Int.floor_le_floor hhi2
      _ = 255 := by norm_num

/-- Alpha byte of a finite input with the saturation removed. -/
lemma alphaByte_finite_floor (q : ℚ) :
    alphaByte (.finite q) = (⌊roundDouble (clampQ q * 255)⌋).toNat := by
  obtain ⟨hlo, hhi⟩ := floor_clamp_bounds q
  rw [alphaByte_finite]
  have h0 : max 0 ⌊roundDouble (clampQ q * 255)⌋ = ⌊roundDouble (clampQ q * 255)⌋ :=
    max_eq_right (by linarith)
  rw [h0, min_eq_right hhi]

/-- Inputs below the double `0.1f64` are pulled to the boundary byte 25:
truncation of the rounded product 25.5. -/
lemma alphaByte_low {q : ℚ} (h : q < lit01) : alphaByte (.finite q) = 25 := by
  rw [alphaByte_finite_floor]
  unfold clampQ
  rw [if_pos h, roundDouble_lit01_255]
  norm_num
  decide

/-- Inputs above 1 are pulled to the boundary byte 255. -/
lemma alphaByte_high {q : ℚ} (h : 1 < q) : alphaByte (.finite q) = 255 := by
  rw [alphaByte_finite_floor]
  unfold clampQ
  rw [if_neg (by linarith [lit01_lt_one]), if_pos h,
    show ((1:ℚ) * 255) = 255 by norm_num, roundDouble_255]
  norm_num
  decide

/-- Alpha byte at one half: truncation of the exact product 127.5. -/
lemma alphaByte_half : alphaByte (.finite (1/2)) = 127 := by
  rw [alphaByte_finite_floor]
  unfold clampQ
  rw [if_neg (by norm_num [lit01]), if_neg (by norm_num),
    show ((1:ℚ)/2 * 255) = 255/2 by norm_num, roundDouble_half255]
  norm_num
  decide

/-! ### Structural lemmas about the two operations -/

/-- On windows with a resolvable handle, the opacity call leaves the OS
with the layered bit OR-ed into the extended style, whatever the
compositor answers. -/
lemma set_window_opacity_os_ok (window : TauriWindow) (hwnd : HWND)
    (opacity : F64) (os : OS) (h : window.hwnd_result = .ok hwnd) :
    (set_window_opacity .windows window opacity os).os =
      { os with exStyle := os.exStyle ||| WS_EX_LAYERED } := by
  unfold set_window_opacity
  rw [h]
  cases hos : os.layeredAttrError <;> simp [hos]

/-- On windows with a resolvable handle, the opacity call performs exactly
the style read, the style write and the compositor call, in this order. -/
lemma set_window_opacity_trace_ok (window : TauriWindow) (hwnd : HWND)
    (opacity : F64) (os : OS) (h : window.hwnd_result = .ok hwnd) :
    (set_window_opacity .windows window opacity os).trace =
      [.getWindowLongW hwnd GWL_EXSTYLE,
       .setWindowLongW hwnd GWL_EXSTYLE (os.exStyle ||| WS_EX_LAYERED),
       .setLayeredWindowAttributes hwnd 0 (alphaByte opacity) LWA_ALPHA] := by
  unfold set_window_opacity
  rw [h]
  cases hos : os.layeredAttrError <;> simp [hos]

/-- On windows with an unresolvable handle, the opacity call fails with
the resolution error itself, touches nothing and calls nothing. -/
lemma set_window_opacity_err (window : TauriWindow) (e : String)
    (opacity : F64) (os : OS) (h : window.hwnd_result = .error e) :
    set_window_opacity .windows window opacity os = ⟨.error e, os, []⟩ := by
  unfold set_window_opacity
  rw [h]

/-- OR-ing in `WS_EX_LAYERED` sets bit 19 whatever the previous style. -/
lemma testBit_or_layered (s : ℕ) : Nat.testBit (s ||| WS_EX_LAYERED) 19 = true := by
  have hl : Nat.testBit WS_EX_LAYERED 19 = true := by decide
  simp [Nat.testBit_or, hl]

/-! ### Claim theorems C1 - C5 -/

/-- C1 (amended): on the supported platform the alpha byte handed to
`SetLayeredWindowAttributes` is `alphaByte opacity`, which for every
finite input equals the truncation of the IEEE round-to-nearest double
product `clamp(opacity, 0.1, 1.0) * 255.0` (not of the exact real
product, from which it can differ by one); in particular every input
below 0.1 yields byte 25, every input above 1.0 yields byte 255, and
input 0.5 yields byte 127. -/
theorem set_window_opacity_alpha_spec (window : TauriWindow) (hwnd : HWND)
    (opacity : F64) (os : OS) (h : window.hwnd_result = .ok hwnd) :
    (PlatformCall.setLayeredWindowAttributes hwnd 0 (alphaByte opacity) LWA_ALPHA
        ∈ (set_window_opacity .windows window opacity os).trace)
    ∧ (∀ q : ℚ, alphaByte (.finite q) = (⌊roundDouble (clampQ q * 255)⌋).toNat)
    ∧ (∀ q : ℚ, q < 1/10 → alphaByte (.finite q) = 25)
    ∧ (∀ q : ℚ, 1 < q → alphaByte (.finite q) = 255)
    ∧ alphaByte (.finite (1/2)) = 127 := by
  refine ⟨?_, alphaByte_finite_floor,
    fun q hq => alphaByte_low (lt_trans hq lit01_gt),
    fun q hq => alphaByte_high hq, alphaByte_half⟩
  rw [set_window_opacity_trace_ok window hwnd opacity os h]
  simp

/-- Witness for C1 at a concrete window, state and input. -/
theorem set_window_opacity_alpha_spec_witness :
    alphaByte (.finite (1/2)) = 127 :=
  (set_window_opacity_alpha_spec ⟨.ok 42⟩ 42 (.finite (1/2)) ⟨0, none, none⟩ rfl).2.2.2.2

/-- C1, the refuted reading: at the representable opacity
`0x1.a1a1a1a1a1a1ap-4` (= `qNear26`, inside the clamp range) the IEEE
product rounds up across the integer to exactly 26.0, so the byte handed
to the compositor is 26 — one more than the truncation 25 of the exact
product `clamp * 255`. -/
theorem alpha_byte_exceeds_exact_truncation :
    alphaByte (.finite qNear26) = 26
    ∧ (⌊clampQ qNear26 * 255⌋).toNat = 25
    ∧ (set_window_opacity .windows ⟨.ok 1⟩ (.finite qNear26)
        ⟨0, none, none⟩).trace.getLast?
        = some (.setLayeredWindowAttributes 1 0 26 LWA_ALPHA) := by
  have hb : alphaByte (.finite qNear26) = 26 := by
    rw [alphaByte_finite_floor, clampQ_qNear26, roundDouble_qNear26_255]
    norm_num
    decide
  refine ⟨hb, ?_, ?_⟩
  · rw [clampQ_qNear26]
    norm_num [qNear26]
    decide
  · rw [set_window_opacity_trace_ok ⟨.ok 1⟩ 1 (.finite qNear26) ⟨0, none, none⟩ rfl, hb]
    rfl

/-- C2: every opacity call that reaches the windows path ORs
`WS_EX_LAYERED` into the current extended style before the compositor
call; the bit is set afterwards whatever it was before and whatever the
compositor answers, and any later opacity invocation (any window, any
opacity) leaves it set. -/
theorem set_window_opacity_layered_bit (window : TauriWindow) (hwnd : HWND)
    (opacity : F64) (os : OS) (h : window.hwnd_result = .ok hwnd) :
    Nat.testBit (set_window_opacity .windows window opacity os).os.exStyle 19 = true
    ∧ (set_window_opacity .windows window opacity os).trace =
        [.getWindowLongW hwnd GWL_EXSTYLE,
         .setWindowLongW hwnd GWL_EXSTYLE (os.exStyle ||| WS_EX_LAYERED),
         .setLayeredWindowAttributes hwnd 0 (alphaByte opacity) LWA_ALPHA]
    ∧ (∀ (window2 : TauriWindow) (opacity2 : F64),
        Nat.testBit (set_window_opacity .windows window2 opacity2
          (set_window_opacity .windows window opacity os).os).os.exStyle 19 = true) := by
  refine ⟨?_, set_window_opacity_trace_ok window hwnd opacity os h, ?_⟩
  · rw [set_window_opacity_os_ok window hwnd opacity os h]
    exact testBit_or_layered _
  · intro window2 opacity2
    rcases h2 : window2.hwnd_result with e2 | hwnd2
    · rw [set_window_opacity_err window2 e2 opacity2 _ h2,
        set_window_opacity_os_ok window hwnd opacity os h]
      exact testBit_or_layered _
    · rw [set_window_opacity_os_ok window2 hwnd2 opacity2 _ h2]
      exact testBit_or_layered _

/-- Witness for C2: fresh window whose style starts with the bit clear. -/
theorem set_window_opacity_layered_bit_witness :
    Nat.testBit (set_window_opacity .windows ⟨.ok 7⟩ (.finite 1) ⟨0, none, none⟩).os.exStyle 19
      = true :=
  (set_window_opacity_layered_bit ⟨.ok 7⟩ 7 (.finite 1) ⟨0, none, none⟩ rfl).1

/-- C3: on any other platform the opacity command succeeds for every
window (even one whose handle would not resolve) and every opacity,
changes no OS state and performs no platform call at all. -/
theorem set_window_opacity_other_noop (window : TauriWindow) (opacity : F64) (os : OS) :
    (set_window_opacity .other window opacity os).result = .ok ()
    ∧ (set_window_opacity .other window opacity os).os = os
    ∧ (set_window_opacity .other window opacity os).trace = [] :=
  ⟨rfl, rfl, rfl⟩

/-- C4: when the handle does not resolve, both operations return the
resolution error text itself (so the message contains it) and perform no
platform call, leaving the OS untouched. -/
theorem handle_resolution_failure (window : TauriWindow) (e : String)
    (opacity : F64) (os : OS) (h : window.hwnd_result = .error e) :
    set_window_opacity .windows window opacity os = ⟨.error e, os, []⟩
    ∧ set_window_corner window os = (.error e, []) := by
  constructor
  · exact set_window_opacity_err window e opacity os h
  · unfold set_window_corner
    rw [h]

/-- Witness for C4: a window whose handle resolution failed. -/
theorem handle_resolution_failure_witness :
    set_window_opacity .windows ⟨.error "no handle"⟩ (.finite 1) ⟨0, none, none⟩
      = ⟨.error "no handle", ⟨0, none, none⟩, []⟩ :=
  (handle_resolution_failure ⟨.error "no handle"⟩ "no handle" (.finite 1)
    ⟨0, none, none⟩ rfl).1

/-- C5: every `DwmSetWindowAttribute` call emitted by `set_window_corner`
carries the corner-preference selector, the value `DWMWCP_ROUND` with its
4-byte size, and never the default, do-not-round or small-round value. -/
theorem set_window_corner_round_only (window : TauriWindow) (os : OS)
    (hwnd : HWND) (dwAttr pv cb : ℕ)
    (h : PlatformCall.dwmSetWindowAttribute hwnd dwAttr pv cb
        ∈ (set_window_corner window os).2) :
    dwAttr = DWMWA_WINDOW_CORNER_PREFERENCE ∧ pv = DWMWCP_ROUND
    ∧ cb = sizeOfCornerPreference
    ∧ pv ≠ DWMWCP_DEFAULT ∧ pv ≠ DWMWCP_DONOTROUND ∧ pv ≠ DWMWCP_ROUNDSMALL := by
  unfold set_window_corner at h
  rcases hr : window.hwnd_result with e | hw <;> rw [hr] at h
  · simp at h
  · cases hd : os.dwmError <;> rw [hd] at h <;> simp at h <;>
      obtain ⟨-, h1, h2, h3⟩ := h <;> subst h1 <;> subst h2 <;> subst h3 <;>
      exact ⟨rfl, rfl, rfl, by decide, by decide, by decide⟩

/-- Witness for C5: the call emitted for a resolvable window. -/
theorem set_window_corner_round_only_witness :
    DWMWCP_ROUND ≠ DWMWCP_ROUNDSMALL :=
  (set_window_corner_round_only ⟨.ok 7⟩ ⟨0, none, none⟩ 7
    DWMWA_WINDOW_CORNER_PREFERENCE DWMWCP_ROUND sizeOfCornerPreference
    (by simp [set_window_corner])).2.2.2.2.2

/-! ### Further helper lemmas for startup and monotonicity -/

/-- Alpha byte computed for `-inf` (clamped up to `0.1f64`). -/
lemma alphaByte_negInf : alphaByte .negInf = 25 := by
  show (min 255 (max 0 ⌊roundDouble (lit01 * 255)⌋)).toNat = 25
  rw [roundDouble_lit01_255]
  norm_num
  decide

/-- Alpha byte computed for `+inf` (clamped down to 1). -/
lemma alphaByte_posInf : alphaByte .posInf = 255 := by
  show (min 255 (max 0 ⌊roundDouble ((1:ℚ) * 255)⌋)).toNat = 255
  rw [show ((1:ℚ) * 255) = 255 by norm_num, roundDouble_255]
  norm_num
  decide

/-- The finite alpha byte always lands in `[25, 255]`. -/
lemma alphaByte_finite_bounds (q : ℚ) :
    25 ≤ alphaByte (.finite q) ∧ alphaByte (.finite q) ≤ 255 := by
  obtain ⟨h1, h2⟩ := floor_clamp_bounds q
  rw [alphaByte_finite_floor]
  omega

/-- The alpha byte is monotone on finite inputs. -/
lemma alphaByte_mono_finite {a b : ℚ} (h : a ≤ b) :
    alphaByte (.finite a) ≤ alphaByte (.finite b) := by
  rw [alphaByte_finite_floor, alphaByte_finite_floor]
  have hpos : (0:ℚ) < clampQ a * 255 := by
    have := (clampQ_mem a).1
    nlinarith [lit01_pos]
  have hc : clampQ a * 255 ≤ clampQ b * 255 :=
    mul_le_mul_of_nonneg_right (clampQ_mono h) (by norm_num)
  have hr := roundDouble_mono hpos hc
  have hf := Int.floor_le_floor hr
  omega

/-- Startup on any non-windows platform performs no platform call. -/
lemma mainStartup_other_trace (app : App) (os : OS) :
    (mainStartup .other app os).2 = [] := by
  unfold mainStartup setup
  cases hw : app.get_webview_window "main" <;> simp [hw]

/-! ### Claim theorems C6 - C10 -/

/-- C6: an error from `set_window_corner` inside the setup hook is
returned by `setup` unchanged and aborts startup, whereas a failing
runtime invocation of the opacity command merely returns its `Result` to
the caller and leaves the application running. -/
theorem startup_error_fatal_runtime_error_not (app : App) (window : TauriWindow)
    (os : OS) (e : String)
    (hw : app.get_webview_window "main" = some window)
    (hc : (set_window_corner window os).1 = .error e) :
    (setup .windows app os).1 = .returned (.error e)
    ∧ (mainStartup .windows app os).1 = .aborted
    ∧ (∀ (p : Platform) (w : TauriWindow) (o : F64) (os2 : OS),
        (invoke_set_window_opacity p w o .running os2).2.1 = .running) := by
  have hs : setup .windows app os = (.returned (.error e), (set_window_corner window os).2) := by
    rcases hp : set_window_corner window os with ⟨r, t⟩
    rw [hp] at hc
    replace hc : r = .error e := hc
    subst hc
    simp [setup, hw, hp]
  refine ⟨by rw [hs], ?_, fun p w o os2 => rfl⟩
  unfold mainStartup
  rw [hs]

/-- Witness for C6: a compositor that rejects the corner request. -/
theorem startup_error_fatal_runtime_error_not_witness :
    (mainStartup .windows ⟨fun _ => some ⟨.ok 9⟩⟩ ⟨0, none, some "denied"⟩).1
      = .aborted :=
  (startup_error_fatal_runtime_error_not ⟨fun _ => some ⟨.ok 9⟩⟩ ⟨.ok 9⟩
    ⟨0, none, some "denied"⟩ "Failed to set window corner:  denied" rfl rfl).2.1

/-- C7: startup on any non-windows platform performs no platform call at
all (in particular no corner-rounding call), and any compositor
window-attribute call in a startup trace can only arise on windows. -/
theorem corner_only_on_windows (platform : Platform) (app : App) (os : OS) :
    (mainStartup .other app os).2 = []
    ∧ (∀ c ∈ (mainStartup platform app os).2,
        c.isDwmSetWindowAttribute = true → platform = .windows) := by
  refine ⟨mainStartup_other_trace app os, ?_⟩
  intro c hc _
  cases platform
  · rfl
  · rw [mainStartup_other_trace app os] at hc
    simp at hc

/-- Witness for C7: concrete startup on the other platform. -/
theorem corner_only_on_windows_witness :
    (mainStartup .other ⟨fun _ => some ⟨.ok 9⟩⟩ ⟨0, none, none⟩).2 = [] :=
  (corner_only_on_windows .other ⟨fun _ => some ⟨.ok 9⟩⟩ ⟨0, none, none⟩).1

/-- C8: `f64::clamp` lets NaN through, so a NaN opacity is not pulled to
a boundary; the cast then produces alpha byte 0, strictly below the
specified floor byte 25, and that byte is what reaches the compositor. -/
theorem nan_opacity_alpha_zero (window : TauriWindow) (hwnd : HWND) (os : OS)
    (h : window.hwnd_result = .ok hwnd) :
    F64.clamp01 .nan = .nan
    ∧ alphaByte .nan = 0
    ∧ (PlatformCall.setLayeredWindowAttributes hwnd 0 0 LWA_ALPHA
        ∈ (set_window_opacity .windows window .nan os).trace)
    ∧ alphaByte .nan < 25 := by
  refine ⟨rfl, rfl, ?_, by decide⟩
  rw [set_window_opacity_trace_ok window hwnd .nan os h]
  have h0 : alphaByte .nan = 0 := rfl
  rw [h0]
  simp

/-- Witness for C8: NaN sent to a resolvable window. -/
theorem nan_opacity_alpha_zero_witness :
    PlatformCall.setLayeredWindowAttributes 3 0 0 LWA_ALPHA
      ∈ (set_window_opacity .windows ⟨.ok 3⟩ .nan ⟨0, none, none⟩).trace :=
  (nan_opacity_alpha_zero ⟨.ok 3⟩ 3 ⟨0, none, none⟩ rfl).2.2.1

/-- C9: when the registry holds no window labelled "main", the setup hook
panics (the `unwrap`) before any corner-rounding call, and startup
aborts. -/
theorem missing_main_window_panics (platform : Platform) (app : App) (os : OS)
    (h : app.get_webview_window "main" = none) :
    setup platform app os = (.panicked, [])
    ∧ (mainStartup platform app os).1 = .aborted := by
  have hs : setup platform app os = (.panicked, []) := by
    unfold setup
    rw [h]
  refine ⟨hs, ?_⟩
  unfold mainStartup
  rw [hs]

/-- Witness for C9: an empty window registry. -/
theorem missing_main_window_panics_witness :
    setup .windows ⟨fun _ => none⟩ ⟨0, none, none⟩ = (.panicked, []) :=
  (missing_main_window_panics .windows ⟨fun _ => none⟩ ⟨0, none, none⟩ rfl).1

/-- C10: the alpha byte is a monotone function of the opacity alone: IEEE
`<=` on non-NaN inputs is respected, and the byte handed to the
compositor is `alphaByte o` no matter which window or OS state the call
runs against. -/
theorem alphaByte_monotone_deterministic :
    (∀ o1 o2 : F64, F64.fle o1 o2 = true → alphaByte o1 ≤ alphaByte o2)
    ∧ (∀ (o : F64) (w1 w2 : TauriWindow) (h1 h2 : HWND) (os1 os2 : OS),
        w1.hwnd_result = .ok h1 → w2.hwnd_result = .ok h2 →
        (set_window_opacity .windows w1 o os1).trace.getLast? =
            some (.setLayeredWindowAttributes h1 0 (alphaByte o) LWA_ALPHA)
          ∧ (set_window_opacity .windows w2 o os2).trace.getLast? =
            some (.setLayeredWindowAttributes h2 0 (alphaByte o) LWA_ALPHA)) := by
  constructor
  · intro o1 o2 hle
    cases o1 <;> cases o2 <;> simp [F64.fle] at hle <;>
      first
        | exact le_refl _
        | (rw [alphaByte_negInf, alphaByte_posInf]; norm_num)
        | (rw [alphaByte_negInf]; exact (alphaByte_finite_bounds _).1)
        | (rw [alphaByte_posInf]; exact (alphaByte_finite_bounds _).2)
        | exact alphaByte_mono_finite hle
  · intro o w1 w2 h1 h2 os1 os2 hw1 hw2
    rw [set_window_opacity_trace_ok w1 h1 o os1 hw1,
      set_window_opacity_trace_ok w2 h2 o os2 hw2]
    exact ⟨rfl, rfl⟩

/-- Witness for C10 at two concrete comparable opacities. -/
theorem alphaByte_monotone_deterministic_witness :
    alphaByte (.finite (3/10)) ≤ alphaByte (.finite (7/10)) :=
  alphaByte_monotone_deterministic.1 (.finite (3/10)) (.finite (7/10))
    (by simp [F64.fle]; norm_num)
